import Mathlib

/-!
# Route guide service core

A shallow embedding of `route_guide_server.cc` (and of the note sequence that
`route_guide_client.cc` sends), followed by the properties proved about it.

Conventions of the embedding:

* protobuf messages are structures with the fields the code reads and writes;
  integer fields are `Int`;
* a `std::vector` is a `List`, and a range-`for` over it is structural recursion
  on the list;
* an inbound stream (`reader->Read`) is the `List` of messages it delivers until
  it reports the end; an outbound stream (`writer->Write`) is the `List` of
  messages written to it, oldest first;
* C++ `int` counters wrap at 32 bits;
* a C++ `float`/`double` value is a `FloatVal`; the floating-point operations
  themselves (rounded arithmetic and the `<cmath>` functions) are the fields of a
  `FloatArith` the definitions take as an argument.
-/

namespace RouteGuide

/-! ## Messages -/

/-- The message `routeguide::Point`. -/
structure Point where
  latitude : Int
  longitude : Int
deriving DecidableEq, Repr

/-- The message `routeguide::Feature`. -/
structure Feature where
  name : String
  location : Point
deriving DecidableEq, Repr

/-- The message `routeguide::Rectangle`. -/
structure Rectangle where
  lo : Point
  hi : Point
deriving DecidableEq, Repr

/-- The message `routeguide::RouteNote`. -/
structure RouteNote where
  message : String
  location : Point
deriving DecidableEq, Repr

/-- The message `routeguide::RouteSummary`. The field `distance` is `none` when
the conversion `static_cast<long>(distance)` that produces it is undefined. -/
structure RouteSummary where
  point_count : Int
  feature_count : Int
  distance : Option Int
  elapsed_time : Int
deriving DecidableEq, Repr

/-- The result `grpc::Status` of a handler. -/
inductive Status where
  | OK
  | CANCELLED
  | UNKNOWN
deriving DecidableEq, Repr

/-! ## Floating point -/

/-- The value of a C++ `float` or `double`: a finite value, which is a rational
number, or a non-finite one (an infinity or a NaN). -/
inductive FloatVal where
  | finite (q : ℚ)
  | nonfinite
deriving DecidableEq

/-- The floating-point operations `GetDistance` and `RecordRoute` use. Their
results depend on the precision each is evaluated in and on the `<cmath>`
implementation, so they are taken as given. -/
structure FloatArith where
  add : FloatVal → FloatVal → FloatVal
  sub : FloatVal → FloatVal → FloatVal
  mul : FloatVal → FloatVal → FloatVal
  div : FloatVal → FloatVal → FloatVal
  sin : FloatVal → FloatVal
  cos : FloatVal → FloatVal
  sqrt : FloatVal → FloatVal
  pow : FloatVal → FloatVal → FloatVal
  atan2 : FloatVal → FloatVal → FloatVal
  /-- The conversion of an integer to floating point. -/
  ofInt : Int → FloatVal
  /-- The value of a decimal literal. -/
  ofLiteral : ℚ → FloatVal

/-- The conversion `static_cast<long>(x)` of a floating-point value: the value
truncated toward zero when that fits in 64 bits, undefined (`none`) otherwise. -/
def static_cast_long : FloatVal → Option Int
  | FloatVal.finite q =>
    let t : Int := if 0 ≤ q then Rat.floor q else -Rat.floor (-q)
    if -(2 : Int) ^ 63 ≤ t ∧ t < (2 : Int) ^ 63 then some t else none
  | FloatVal.nonfinite => none

/-- The source function `ConvertToRadians`: `num * 3.1415926 / 180`. -/
def ConvertToRadians (ops : FloatArith) (num : FloatVal) : FloatVal :=
  ops.div (ops.mul num (ops.ofLiteral 3.1415926)) (ops.ofInt 180)

/-- The source function `GetDistance`. -/
def GetDistance (ops : FloatArith) (start finish : Point) : FloatVal :=
  let kCoordFactor := ops.ofLiteral 10000000.0
  let lat_1 := ops.div (ops.ofInt start.latitude) kCoordFactor
  let lat_2 := ops.div (ops.ofInt finish.latitude) kCoordFactor
  let lon_1 := ops.div (ops.ofInt start.longitude) kCoordFactor
  let lon_2 := ops.div (ops.ofInt finish.longitude) kCoordFactor
  let lat_rad_1 := ConvertToRadians ops lat_1
  let lat_rad_2 := ConvertToRadians ops lat_2
  let delta_lat_rad := ConvertToRadians ops (ops.sub lat_2 lat_1)
  let delta_lon_rad := ConvertToRadians ops (ops.sub lon_2 lon_1)
  let a :=
    ops.add (ops.pow (ops.sin (ops.div delta_lat_rad (ops.ofInt 2))) (ops.ofInt 2))
      (ops.mul (ops.mul (ops.cos lat_rad_1) (ops.cos lat_rad_2))
        (ops.pow (ops.sin (ops.div delta_lon_rad (ops.ofInt 2))) (ops.ofInt 2)))
  let c :=
    ops.mul (ops.ofInt 2) (ops.atan2 (ops.sqrt a) (ops.sqrt (ops.sub (ops.ofInt 1) a)))
  let R : Int := 6371000
  ops.mul (ops.ofInt R) c

/-! ## Feature store -/

/-- The source function `GetFeatureName`: the name of the first feature of the
list located at `point`, the empty string when there is none. -/
def GetFeatureName (point : Point) : List Feature → String
  | [] => ""
  | f :: rest =>
    if f.location.latitude = point.latitude ∧ f.location.longitude = point.longitude then
      f.name
    else
      GetFeatureName point rest

/-- The handler `RouteGuideImpl::GetFeature`: the status and the response. -/
def GetFeature (feature_list_ : List Feature) (point : Point) : Status × Feature :=
  (Status.OK, { name := GetFeatureName point feature_list_, location := point })

/-- The loop of `RouteGuideImpl::ListFeatures` over the features still to visit;
`written` is what the writer has received so far. -/
def ListFeatures.loop (left right top bottom : Int) :
    List Feature → List Feature → List Feature
  | [], written => written
  | f :: rest, written =>
    if f.location.longitude ≥ left ∧ f.location.longitude ≤ right ∧
        f.location.latitude ≥ bottom ∧ f.location.latitude ≤ top then
      ListFeatures.loop left right top bottom rest (written ++ [f])
    else
      ListFeatures.loop left right top bottom rest written

/-- The handler `RouteGuideImpl::ListFeatures`: the status and the features
written to the stream, in the order written. -/
def ListFeatures (feature_list_ : List Feature) (rectangle : Rectangle) :
    Status × List Feature :=
  let lo := rectangle.lo
  let hi := rectangle.hi
  let left := min lo.longitude hi.longitude
  let right := max lo.longitude hi.longitude
  let top := max lo.latitude hi.latitude
  let bottom := min lo.latitude hi.latitude
  (Status.OK, ListFeatures.loop left right top bottom feature_list_ [])

/-! ## Route aggregation -/

/-- A C++ `int` holding the mathematical value `x`: two's complement on 32 bits. -/
def wrapInt32 (x : Int) : Int :=
  (x + 2 ^ 31) % 2 ^ 32 - 2 ^ 31

/-- The local variables of `RouteGuideImpl::RecordRoute`. -/
structure RecordRouteState where
  point_count : Int
  feature_count : Int
  distance : FloatVal
  previous : Point

/-- The local variables of `RecordRoute` before its loop. -/
def RecordRoute.init : RecordRouteState :=
  { point_count := 0, feature_count := 0, distance := FloatVal.finite 0,
    previous := { latitude := 0, longitude := 0 } }

/-- One iteration of the read loop of `RecordRoute`, for the point just read. -/
def RecordRoute.body (ops : FloatArith) (feature_list_ : List Feature)
    (s : RecordRouteState) (point : Point) : RecordRouteState :=
  let point_count := wrapInt32 (s.point_count + 1)
  let feature_count :=
    if ¬ (GetFeatureName point feature_list_ = "") then wrapInt32 (s.feature_count + 1)
    else s.feature_count
  let distance :=
    if point_count ≠ 1 then ops.add s.distance (GetDistance ops s.previous point)
    else s.distance
  { point_count := point_count, feature_count := feature_count, distance := distance,
    previous := point }

/-- The read loop of `RecordRoute` over the points the stream delivers. -/
def RecordRoute.loop (ops : FloatArith) (feature_list_ : List Feature) :
    RecordRouteState → List Point → RecordRouteState
  | s, [] => s
  | s, point :: rest =>
    RecordRoute.loop ops feature_list_ (RecordRoute.body ops feature_list_ s point) rest

/-- The handler `RouteGuideImpl::RecordRoute`: the status and the summary, for
the points of the stream and the measured duration `secs` in seconds. -/
def RecordRoute (ops : FloatArith) (feature_list_ : List Feature) (secs : Int)
    (stream : List Point) : Status × RouteSummary :=
  let s := RecordRoute.loop ops feature_list_ RecordRoute.init stream
  (Status.OK,
    { point_count := s.point_count, feature_count := s.feature_count,
      distance := static_cast_long s.distance, elapsed_time := secs })

/-! ## Note exchange -/

/-- The scan of `RouteGuideImpl::RouteChat` over the stored notes still to visit;
`written` is what has been written to the caller so far in this step. -/
def RouteChat.scan (note : RouteNote) : List RouteNote → List RouteNote → List RouteNote
  | [], written => written
  | n :: rest, written =>
    if n.location.latitude = note.location.latitude ∧
        n.location.longitude = note.location.longitude then
      RouteChat.scan note rest (written ++ [n])
    else
      RouteChat.scan note rest written

/-- The body of the read loop of `RouteChat` for one incoming note, run under the
lock: the notes written to the caller and the stored notes afterwards. -/
def RouteChat.step (received_notes_ : List RouteNote) (note : RouteNote) :
    List RouteNote × List RouteNote :=
  (RouteChat.scan note received_notes_ [], received_notes_ ++ [note])

/-- A run of the note exchange: the incoming notes, each with the caller whose
stream delivered it, in the order their steps take the lock. The result is the
stored notes afterwards and, for each step, the caller and the notes written to
that caller during the step. -/
def RouteChat.run (received_notes_ : List RouteNote) :
    List (Nat × RouteNote) → List RouteNote × List (Nat × List RouteNote)
  | [] => (received_notes_, [])
  | (caller, note) :: rest =>
    let r := RouteChat.step received_notes_ note
    let t := RouteChat.run r.2 rest
    (t.1, (caller, r.1) :: t.2)

/-- The handler `RouteChat` for one session with nothing else running: the status,
the notes written to the caller, and the stored notes afterwards. -/
def RouteChat (received_notes_ : List RouteNote) (stream : List RouteNote) :
    Status × List RouteNote × List RouteNote :=
  let t := RouteChat.run received_notes_ (stream.map (fun note => (0, note)))
  (Status.OK, (t.2.map Prod.snd).flatten, t.1)

/-- The scan of `RouteChat` with the result of each `stream->Write` made
explicit: `ok i` tells whether the write number `i` of the step succeeds. The
code does not look at that result, so the scan goes on after a failed write;
`delivered` is what has reached the caller so far in this step. -/
def RouteChat.scanSends (note : RouteNote) (ok : Nat → Bool) :
    List RouteNote → Nat → List RouteNote → List RouteNote
  | [], _, delivered => delivered
  | n :: rest, i, delivered =>
    if n.location.latitude = note.location.latitude ∧
        n.location.longitude = note.location.longitude then
      RouteChat.scanSends note ok rest (i + 1) (if ok i then delivered ++ [n] else delivered)
    else
      RouteChat.scanSends note ok rest i delivered

/-- The body of the read loop of `RouteChat` with the outcomes of the writes made
explicit: the notes that reached the caller and the stored notes afterwards. -/
def RouteChat.stepSends (received_notes_ : List RouteNote) (note : RouteNote)
    (ok : Nat → Bool) : List RouteNote × List RouteNote :=
  (RouteChat.scanSends note ok received_notes_ 0 [], received_notes_ ++ [note])

/-- The caller `c` is sent the note `m` in some step of the run. -/
def Receives (steps : List (Nat × List RouteNote)) (c : Nat) (m : RouteNote) : Prop :=
  ∃ r ∈ steps, r.1 = c ∧ m ∈ r.2

instance (steps : List (Nat × List RouteNote)) (c : Nat) (m : RouteNote) :
    Decidable (Receives steps c m) := by
  unfold Receives; infer_instance

/-- The function `MakeRouteNote` of the client. -/
def MakeRouteNote (message : String) (latitude longitude : Int) : RouteNote :=
  { message := message, location := { latitude := latitude, longitude := longitude } }

/-- The notes the client's `RouteChat` writes, in order. -/
def clientNotes : List RouteNote :=
  [MakeRouteNote "First message" 0 0, MakeRouteNote "Second message" 0 1,
   MakeRouteNote "Third message" 1 0, MakeRouteNote "Fourth message" 0 0]

/-! ## Predicates of the properties -/

/-- The test of `ListFeatures` as the bounding box of the two corners: both
coordinates between the smaller and the larger of the corners' coordinates. -/
def InRectangle (lo hi : Point) (f : Feature) : Prop :=
  min lo.longitude hi.longitude ≤ f.location.longitude ∧
  f.location.longitude ≤ max lo.longitude hi.longitude ∧
  min lo.latitude hi.latitude ≤ f.location.latitude ∧
  f.location.latitude ≤ max lo.latitude hi.latitude

instance (lo hi : Point) (f : Feature) : Decidable (InRectangle lo hi f) := by
  unfold InRectangle; infer_instance

/-- The feature `f` is located exactly at `p`. -/
def LocatedAt (p : Point) (f : Feature) : Prop :=
  f.location.latitude = p.latitude ∧ f.location.longitude = p.longitude

instance (p : Point) (f : Feature) : Decidable (LocatedAt p f) := by
  unfold LocatedAt; infer_instance

/-- The note `m` has the location of the note `n`. -/
def SameLocation (n m : RouteNote) : Prop :=
  m.location.latitude = n.location.latitude ∧ m.location.longitude = n.location.longitude

instance (n m : RouteNote) : Decidable (SameLocation n m) := by
  unfold SameLocation; infer_instance

/-! ## Concrete inputs -/

/-- The store of the scenario: the one feature "A" at (10000000, 10000000). -/
def storeA : List Feature :=
  [{ name := "A", location := { latitude := 10000000, longitude := 10000000 } }]

/-- Floating-point operations to evaluate the definitions with: exact rational
arithmetic on finite values, and zero for the `<cmath>` functions. -/
def exactArith : FloatArith where
  add := fun x y =>
    match x, y with
    | FloatVal.finite a, FloatVal.finite b => FloatVal.finite (a + b)
    | _, _ => FloatVal.nonfinite
  sub := fun x y =>
    match x, y with
    | FloatVal.finite a, FloatVal.finite b => FloatVal.finite (a - b)
    | _, _ => FloatVal.nonfinite
  mul := fun x y =>
    match x, y with
    | FloatVal.finite a, FloatVal.finite b => FloatVal.finite (a * b)
    | _, _ => FloatVal.nonfinite
  div := fun x y =>
    match x, y with
    | FloatVal.finite a, FloatVal.finite b =>
      if b = 0 then FloatVal.nonfinite else FloatVal.finite (a / b)
    | _, _ => FloatVal.nonfinite
  sin := fun _ => FloatVal.finite 0
  cos := fun _ => FloatVal.finite 0
  sqrt := fun _ => FloatVal.finite 0
  pow := fun _ _ => FloatVal.finite 0
  atan2 := fun _ _ => FloatVal.finite 0
  ofInt := fun i => FloatVal.finite i
  ofLiteral := fun q => FloatVal.finite q

/-! ## Theorems -/

theorem ListFeatures.loop_eq (left right top bottom : Int) (F written : List Feature) :
    ListFeatures.loop left right top bottom F written =
      written ++ F.filter (fun f => decide (f.location.longitude ≥ left ∧
        f.location.longitude ≤ right ∧ f.location.latitude ≥ bottom ∧
        f.location.latitude ≤ top)) := by
  induction F generalizing written with
  | nil => simp [ListFeatures.loop]
  | cons f rest ih =>
    by_cases h : f.location.longitude ≥ left ∧ f.location.longitude ≤ right ∧
        f.location.latitude ≥ bottom ∧ f.location.latitude ≤ top
    · simp only [ListFeatures.loop, if_pos h, ih, List.filter_cons, decide_eq_true h,
        if_true, List.append_assoc, List.singleton_append]
    · simp only [ListFeatures.loop, if_neg h, ih, List.filter_cons, decide_eq_false h]
      simp

/-- C1: the features `ListFeatures` writes are the store filtered, in store
order, by the closed bounding box of the two corners; the call returns OK; each
feature is written as often as it occurs in the store when it lies in the box,
and never when it does not. On the store with the one feature "A" the rectangle
from (0, 0) to (20000000, 20000000) yields that feature. -/
theorem ListFeatures_writes_filter (F : List Feature) (lo hi : Point) :
    ListFeatures F { lo := lo, hi := hi } =
        (Status.OK, F.filter (fun f => decide (InRectangle lo hi f))) ∧
      (∀ f, (ListFeatures F { lo := lo, hi := hi }).2.count f =
        if InRectangle lo hi f then F.count f else 0) ∧
      ListFeatures storeA
          { lo := { latitude := 0, longitude := 0 },
            hi := { latitude := 20000000, longitude := 20000000 } } =
        (Status.OK, storeA) := by
  have h : ListFeatures F { lo := lo, hi := hi } =
      (Status.OK, F.filter (fun f => decide (InRectangle lo hi f))) := by
    simp only [ListFeatures, ListFeatures.loop_eq, List.nil_append, InRectangle, ge_iff_le]
  refine ⟨h, fun f => ?_, by decide⟩
  rw [h]
  by_cases hf : InRectangle lo hi f
  · rw [if_pos hf]
    exact List.count_filter (by simpa using hf)
  · rw [if_neg hf]
    refine List.count_eq_zero.mpr (fun hm => hf ?_)
    simpa using (List.mem_filter.mp hm).2

theorem GetFeatureName_of_none (p : Point) (F : List Feature)
    (h : ∀ f ∈ F, ¬ LocatedAt p f) : GetFeatureName p F = "" := by
  induction F with
  | nil => rfl
  | cons g rest ih =>
    have hg : ¬ LocatedAt p g := h g (List.mem_cons_self g rest)
    have hr : ∀ f ∈ rest, ¬ LocatedAt p f := fun f hf => h f (List.mem_cons_of_mem g hf)
    unfold LocatedAt at hg
    simp only [GetFeatureName, if_neg hg, ih hr]

theorem GetFeatureName_append (p : Point) (pre : List Feature) (f : Feature)
    (suf : List Feature) (hpre : ∀ g ∈ pre, ¬ LocatedAt p g) (hf : LocatedAt p f) :
    GetFeatureName p (pre ++ f :: suf) = f.name := by
  induction pre with
  | nil =>
    unfold LocatedAt at hf
    simp only [List.nil_append, GetFeatureName, if_pos hf]
  | cons g rest ih =>
    have hg : ¬ LocatedAt p g := hpre g (List.mem_cons_self g rest)
    have hr : ∀ x ∈ rest, ¬ LocatedAt p x := fun x hx => hpre x (List.mem_cons_of_mem g hx)
    unfold LocatedAt at hg
    rw [List.cons_append]
    simp only [GetFeatureName, if_neg hg]
    exact ih hr

theorem exists_first_located (p : Point) (F : List Feature) (h : ∃ f ∈ F, LocatedAt p f) :
    ∃ pre f suf, F = pre ++ f :: suf ∧ (∀ g ∈ pre, ¬ LocatedAt p g) ∧ LocatedAt p f := by
  induction F with
  | nil =>
    obtain ⟨f, hf, _⟩ := h
    exact absurd hf (List.not_mem_nil f)
  | cons g rest ih =>
    by_cases hg : LocatedAt p g
    · exact ⟨[], g, rest, rfl, fun x hx => absurd hx (List.not_mem_nil x), hg⟩
    · obtain ⟨f, hf, hp⟩ := h
      have hrest : ∃ f ∈ rest, LocatedAt p f := by
        rcases List.mem_cons.mp hf with e | e
        · exact absurd (e ▸ hp) hg
        · exact ⟨f, e, hp⟩
      obtain ⟨pre, f0, suf, e, hpre, h0⟩ := ih hrest
      refine ⟨g :: pre, f0, suf, by rw [e]; rfl, fun x hx => ?_, h0⟩
      rcases List.mem_cons.mp hx with e1 | e1
      · exact e1 ▸ hg
      · exact hpre x e1

/-- C2: when some feature of the store is located exactly at `p`, `GetFeature`
returns OK with the name of the first such feature in store order (the store
splits into features not at `p`, that feature, and the rest) and with location
`p`. -/
theorem GetFeature_returns_first_match (F : List Feature) (p : Point)
    (h : ∃ f ∈ F, LocatedAt p f) :
    ∃ pre f suf, F = pre ++ f :: suf ∧ (∀ g ∈ pre, ¬ LocatedAt p g) ∧ LocatedAt p f ∧
      F.find? (fun g => decide (LocatedAt p g)) = some f ∧
      GetFeature F p = (Status.OK, { name := f.name, location := p }) ∧
      (GetFeature F p).2.location = p := by
  obtain ⟨pre, f, suf, e, hpre, hf⟩ := exists_first_located p F h
  refine ⟨pre, f, suf, e, hpre, hf, ?_, ?_, rfl⟩
  · rw [e, List.find?_append, List.find?_eq_none.mpr (by simpa using hpre)]
    simp [hf]
  · simp only [GetFeature, e, GetFeatureName_append p pre f suf hpre hf]

/-- The scenario of C2: the store with the feature "A" and the lookup at its location. -/
theorem GetFeature_returns_first_match_witness :
    ∃ pre f suf, storeA = pre ++ f :: suf ∧
      (∀ g ∈ pre, ¬ LocatedAt { latitude := 10000000, longitude := 10000000 } g) ∧
      LocatedAt { latitude := 10000000, longitude := 10000000 } f ∧
      storeA.find? (fun g =>
        decide (LocatedAt { latitude := 10000000, longitude := 10000000 } g)) = some f ∧
      GetFeature storeA { latitude := 10000000, longitude := 10000000 } =
        (Status.OK,
          { name := f.name, location := { latitude := 10000000, longitude := 10000000 } }) ∧
      (GetFeature storeA { latitude := 10000000, longitude := 10000000 }).2.location =
        { latitude := 10000000, longitude := 10000000 } :=
  GetFeature_returns_first_match storeA { latitude := 10000000, longitude := 10000000 }
    ⟨{ name := "A", location := { latitude := 10000000, longitude := 10000000 } },
      by simp [storeA], by simp [LocatedAt]⟩

/-- C3: when no feature of the store is located exactly at `P`, whatever the
coordinates of `P`, `GetFeature` returns OK and the feature with the empty name
and location `P`. -/
theorem GetFeature_not_found (F : List Feature) (P : Point)
    (h : ∀ f ∈ F, ¬ LocatedAt P f) :
    GetFeature F P = (Status.OK, { name := "", location := P }) := by
  simp only [GetFeature, GetFeatureName_of_none P F h]

/-- The scenario of C3: the store with the feature "A" and the lookup at (0, 0). -/
theorem GetFeature_not_found_witness :
    (∀ f ∈ storeA, ¬ LocatedAt { latitude := 0, longitude := 0 } f) ∧
      GetFeature storeA { latitude := 0, longitude := 0 } =
        (Status.OK, { name := "", location := { latitude := 0, longitude := 0 } }) :=
  ⟨by simp [storeA, LocatedAt],
    GetFeature_not_found storeA { latitude := 0, longitude := 0 }
      (by simp [storeA, LocatedAt])⟩

theorem RouteChat.scan_eq (note : RouteNote) (L written : List RouteNote) :
    RouteChat.scan note L written =
      written ++ L.filter (fun m => decide (SameLocation note m)) := by
  induction L generalizing written with
  | nil => simp [RouteChat.scan]
  | cons m rest ih =>
    by_cases h : m.location.latitude = note.location.latitude ∧
        m.location.longitude = note.location.longitude
    · have hd : decide (SameLocation note m) = true := decide_eq_true h
      simp only [RouteChat.scan, if_pos h, ih, List.filter_cons, hd, if_true,
        List.append_assoc, List.singleton_append]
    · have hd : decide (SameLocation note m) = false := decide_eq_false h
      simp only [RouteChat.scan, if_neg h, ih, List.filter_cons, hd]
      simp

theorem RouteChat.run_fst (L : List RouteNote) (ns : List (Nat × RouteNote)) :
    (RouteChat.run L ns).1 = L ++ ns.map Prod.snd := by
  induction ns generalizing L with
  | nil => simp [RouteChat.run]
  | cons x rest ih =>
    obtain ⟨c, n⟩ := x
    simp only [RouteChat.run, RouteChat.step, ih, List.map_cons, List.append_assoc,
      List.singleton_append]

theorem RouteChat.run_snd_callers (L : List RouteNote) (ns : List (Nat × RouteNote)) :
    (RouteChat.run L ns).2.map Prod.fst = ns.map Prod.fst := by
  induction ns generalizing L with
  | nil => simp [RouteChat.run]
  | cons x rest ih =>
    obtain ⟨c, n⟩ := x
    simp only [RouteChat.run, List.map_cons, ih]

theorem RouteChat.run_snd_getElem? (L : List RouteNote) (ns : List (Nat × RouteNote))
    (k c : Nat) (n : RouteNote) (h : ns[k]? = some (c, n)) :
    (RouteChat.run L ns).2[k]? =
      some (c, (L ++ (ns.take k).map Prod.snd).filter
        (fun m => decide (SameLocation n m))) := by
  induction ns generalizing L k with
  | nil => simp at h
  | cons x rest ih =>
    obtain ⟨c0, n0⟩ := x
    cases k with
    | zero =>
      simp only [List.getElem?_cons_zero, Option.some.injEq, Prod.mk.injEq] at h
      obtain ⟨rfl, rfl⟩ := h
      simp [RouteChat.run, RouteChat.step, RouteChat.scan_eq]
    | succ j =>
      simp only [List.getElem?_cons_succ] at h
      simp only [RouteChat.run, RouteChat.step, List.getElem?_cons_succ, ih _ j h,
        List.take_succ_cons, List.map_cons, List.append_assoc, List.singleton_append]

theorem getElem?_append_cons_length {α : Type} (pre : List α) (x : α) (suf : List α) :
    (pre ++ x :: suf)[pre.length]? = some x := by
  induction pre with
  | nil => simp
  | cons y rest ih => simpa using ih

theorem take_length_append {α : Type} (pre suf : List α) :
    (pre ++ suf).take pre.length = pre := by
  induction pre with
  | nil => rfl
  | cons y rest ih => simp

/-- C4: one step of `RouteChat` on the log `L` for the incoming note `n` writes to
the caller the notes of `L` at the location of `n`, in log order, each as often
as it is stored, and leaves the log `L ++ [n]`; the entry of `n` itself, the last
one of the new log, is the one entry at that location that was not written. -/
theorem RouteChat_step_echoes_then_appends (L : List RouteNote) (n : RouteNote) :
    (RouteChat.step L n).1 = L.filter (fun m => decide (SameLocation n m)) ∧
      (RouteChat.step L n).2 = L ++ [n] ∧
      (∀ m, (RouteChat.step L n).1.count m = if SameLocation n m then L.count m else 0) ∧
      (RouteChat.step L n).2.filter (fun m => decide (SameLocation n m)) =
        (RouteChat.step L n).1 ++ [n] ∧
      (RouteChat.step L n).1.length + 1 =
        ((RouteChat.step L n).2.filter (fun m => decide (SameLocation n m))).length := by
  have h1 : (RouteChat.step L n).1 = L.filter (fun m => decide (SameLocation n m)) := by
    simp [RouteChat.step, RouteChat.scan_eq]
  have h2 : (RouteChat.step L n).2 = L ++ [n] := rfl
  have hn : SameLocation n n := ⟨rfl, rfl⟩
  have h3 : (RouteChat.step L n).2.filter (fun m => decide (SameLocation n m)) =
      (RouteChat.step L n).1 ++ [n] := by
    rw [h1, h2, List.filter_append]
    simp [hn]
  refine ⟨h1, h2, fun m => ?_, h3, ?_⟩
  · rw [h1]
    by_cases hm : SameLocation n m
    · rw [if_pos hm]
      exact List.count_filter (by simpa using hm)
    · rw [if_neg hm]
      refine List.count_eq_zero.mpr (fun hmem => hm ?_)
      simpa using (List.mem_filter.mp hmem).2
  · rw [h3]
    simp

/-- C5: in a run of the note exchange from the empty log over the notes `ns`, the
log afterwards is the notes of `ns` in order; the step of each note is answered to
the caller that delivered it; the notes written in the step of a note `n` are the
notes before it in `ns` at the location of `n`, in order; so a note `A` before a
note `B` at the same location is written to the caller of `B` in the step of `B`.
The four notes of the client produce one echo, "First message", in the step of
the fourth. -/
theorem RouteChat_run_from_empty (ns : List (Nat × RouteNote)) :
    (RouteChat.run [] ns).1 = ns.map Prod.snd ∧
      (RouteChat.run [] ns).2.map Prod.fst = ns.map Prod.fst ∧
      (∀ pre c n suf, ns = pre ++ (c, n) :: suf →
        (RouteChat.run [] ns).2[pre.length]? =
          some (c, (pre.map Prod.snd).filter (fun m => decide (SameLocation n m)))) ∧
      (∀ pre ca A mid cb B suf, ns = pre ++ (ca, A) :: (mid ++ (cb, B) :: suf) →
        A.location = B.location →
        ∃ sent, (RouteChat.run [] ns).2[pre.length + 1 + mid.length]? = some (cb, sent) ∧
          A ∈ sent) ∧
      RouteChat.run [] (clientNotes.map (fun m => (0, m))) =
        (clientNotes, [(0, []), (0, []), (0, []), (0, [MakeRouteNote "First message" 0 0])]) ∧
      RouteChat [] clientNotes =
        (Status.OK, [MakeRouteNote "First message" 0 0], clientNotes) := by
  have key : ∀ pre c n suf, ns = pre ++ (c, n) :: suf →
      (RouteChat.run [] ns).2[pre.length]? =
        some (c, (pre.map Prod.snd).filter (fun m => decide (SameLocation n m))) := by
    intro pre c n suf e
    have h := RouteChat.run_snd_getElem? [] ns pre.length c n
      (by rw [e]; exact getElem?_append_cons_length pre (c, n) suf)
    rw [h, e, take_length_append]
    simp
  refine ⟨by simp [RouteChat.run_fst], RouteChat.run_snd_callers [] ns, key, ?_, ?_, ?_⟩
  · intro pre ca A mid cb B suf e hloc
    have e2 : ns = (pre ++ (ca, A) :: mid) ++ (cb, B) :: suf := by simp [e]
    have h := key (pre ++ (ca, A) :: mid) cb B suf e2
    have hlen : (pre ++ (ca, A) :: mid).length = pre.length + 1 + mid.length := by
      simp; omega
    rw [hlen] at h
    refine ⟨_, h, ?_⟩
    simp only [List.map_append, List.map_cons, List.mem_filter, List.mem_append,
      List.mem_cons, decide_eq_true_eq]
    exact ⟨Or.inr (Or.inl trivial), by simp [SameLocation, hloc]⟩
  · decide
  · decide

theorem mem_take_append_cons_iff {α : Type} (before : List α) (x : α) (after : List α)
    (k : Nat) (hfresh : x ∉ before) :
    x ∈ (before ++ x :: after).take k ↔ before.length < k := by
  constructor
  · intro hm
    by_contra hk
    have hle : k ≤ before.length := Nat.le_of_not_lt hk
    rw [List.take_append_of_le_length hle] at hm
    exact hfresh (List.mem_of_mem_take hm)
  · intro hk
    have hsplit : (before ++ x :: after).take k =
        before ++ (x :: after).take (k - before.length) := by
      rw [List.take_append_eq_append_take, List.take_of_length_le (Nat.le_of_lt hk)]
    rw [hsplit]
    obtain ⟨j, hj⟩ : ∃ j, k - before.length = j + 1 := ⟨k - before.length - 1, by omega⟩
    rw [hj, List.take_succ_cons]
    simp

/-- C6, as stated, fails: caller 1 delivers `A` at (5, 7), caller 2 then delivers
`B` at (5, 7) and is sent `A`, and caller 1 then delivers `C` at (5, 7): in that
third step caller 1, the caller of `A`, is sent `B`. -/
theorem RouteChat_caller_of_earlier_note_receives_later :
    (MakeRouteNote "A" 5 7).location = (MakeRouteNote "B" 5 7).location ∧
      RouteChat.run []
          [(1, MakeRouteNote "A" 5 7), (2, MakeRouteNote "B" 5 7),
            (1, MakeRouteNote "C" 5 7)] =
        ([MakeRouteNote "A" 5 7, MakeRouteNote "B" 5 7, MakeRouteNote "C" 5 7],
          [(1, []), (2, [MakeRouteNote "A" 5 7]),
            (1, [MakeRouteNote "A" 5 7, MakeRouteNote "B" 5 7])]) ∧
      Receives
        (RouteChat.run []
          [(1, MakeRouteNote "A" 5 7), (2, MakeRouteNote "B" 5 7),
            (1, MakeRouteNote "C" 5 7)]).2
        1 (MakeRouteNote "B" 5 7) := by
  decide

/-- C6, amended: in a run from the empty log in which `A` is stored before `B`
arrives at the same location, `B` being a note not stored before, the step of `A`
does not write `B` to the caller of `A`; and a step of the run writes `B` exactly
when it comes after the step of `B` and its own note is at that location.
So the caller of `A` is sent `B` only in answer to a note at that location that
it delivers after `B` was stored. -/
theorem RouteChat_later_note_echoed_only_later (pre : List (Nat × RouteNote)) (ca : Nat)
    (A : RouteNote) (mid : List (Nat × RouteNote)) (cb : Nat) (B : RouteNote)
    (suf : List (Nat × RouteNote)) (hloc : A.location = B.location)
    (hfresh : B ∉ (pre ++ (ca, A) :: mid).map Prod.snd) :
    (∃ sent, (RouteChat.run [] (pre ++ (ca, A) :: (mid ++ (cb, B) :: suf))).2[pre.length]? =
        some (ca, sent) ∧ B ∉ sent) ∧
      (∀ k c n, (pre ++ (ca, A) :: (mid ++ (cb, B) :: suf))[k]? = some (c, n) →
        ∃ sent, (RouteChat.run [] (pre ++ (ca, A) :: (mid ++ (cb, B) :: suf))).2[k]? =
            some (c, sent) ∧
          (B ∈ sent ↔ pre.length + 1 + mid.length < k ∧ n.location = A.location)) := by
  have hlen : (pre ++ (ca, A) :: mid).length = pre.length + 1 + mid.length := by
    simp; omega
  have hns : pre ++ (ca, A) :: (mid ++ (cb, B) :: suf) =
      (pre ++ (ca, A) :: mid) ++ (cb, B) :: suf := by simp
  have hgen : ∀ k c n, (pre ++ (ca, A) :: (mid ++ (cb, B) :: suf))[k]? = some (c, n) →
      ∃ sent, (RouteChat.run [] (pre ++ (ca, A) :: (mid ++ (cb, B) :: suf))).2[k]? =
          some (c, sent) ∧
        (B ∈ sent ↔ pre.length + 1 + mid.length < k ∧ n.location = A.location) := by
    intro k c n hk
    have hsame : SameLocation n B ↔ n.location = A.location := by
      rw [hloc]
      constructor
      · intro h
        have e : B.location = n.location := by
          cases hb : B.location
          cases hn : n.location
          simp only [SameLocation, hb, hn] at h
          rw [h.1, h.2]
        exact e.symm
      · intro h
        exact ⟨by rw [h], by rw [h]⟩
    refine ⟨_, RouteChat.run_snd_getElem? [] _ k c n hk, ?_⟩
    have hmem : B ∈ List.map Prod.snd
        (List.take k (pre ++ (ca, A) :: (mid ++ (cb, B) :: suf))) ↔
        pre.length + 1 + mid.length < k := by
      have h := mem_take_append_cons_iff ((pre ++ (ca, A) :: mid).map Prod.snd) B
        (suf.map Prod.snd) k hfresh
      rw [List.length_map, hlen] at h
      rw [List.map_take, hns, List.map_append, List.map_cons]
      exact h
    rw [List.nil_append, List.mem_filter, decide_eq_true_eq, hmem, hsame]
  refine ⟨?_, hgen⟩
  obtain ⟨sent, hs, hiff⟩ := hgen pre.length ca A
    (getElem?_append_cons_length pre (ca, A) _)
  exact ⟨sent, hs, fun hB => by have := (hiff.mp hB).1; omega⟩

/-- The amended C6 on the run of the three notes `A`, `B`, `C` at (5, 7). -/
theorem RouteChat_later_note_echoed_only_later_witness :
    (∃ sent, (RouteChat.run []
        ([] ++ (1, MakeRouteNote "A" 5 7) ::
          ([] ++ (2, MakeRouteNote "B" 5 7) :: [(1, MakeRouteNote "C" 5 7)]))).2[
          ([] : List (Nat × RouteNote)).length]? = some (1, sent) ∧
        MakeRouteNote "B" 5 7 ∉ sent) ∧
      (∀ k c n,
        ([] ++ (1, MakeRouteNote "A" 5 7) ::
          ([] ++ (2, MakeRouteNote "B" 5 7) :: [(1, MakeRouteNote "C" 5 7)]))[k]? =
            some (c, n) →
        ∃ sent, (RouteChat.run []
            ([] ++ (1, MakeRouteNote "A" 5 7) ::
              ([] ++ (2, MakeRouteNote "B" 5 7) :: [(1, MakeRouteNote "C" 5 7)]))).2[k]? =
              some (c, sent) ∧
          (MakeRouteNote "B" 5 7 ∈ sent ↔
            ([] : List (Nat × RouteNote)).length + 1 +
              ([] : List (Nat × RouteNote)).length < k ∧
              n.location = (MakeRouteNote "A" 5 7).location)) :=
  RouteChat_later_note_echoed_only_later [] 1 (MakeRouteNote "A" 5 7) [] 2
    (MakeRouteNote "B" 5 7) [(1, MakeRouteNote "C" 5 7)] rfl (by decide)

theorem wrapInt32_of_range (x : Int) (h1 : -2147483648 ≤ x) (h2 : x < 2147483648) :
    wrapInt32 x = x := by
  unfold wrapInt32
  norm_num
  omega

theorem RecordRoute.loop_counts (ops : FloatArith) (F : List Feature)
    (stream : List Point) (s : RecordRouteState) (h0 : 0 ≤ s.feature_count)
    (h1 : s.feature_count ≤ s.point_count)
    (h2 : s.point_count + stream.length < 2147483648) :
    (RecordRoute.loop ops F s stream).point_count = s.point_count + stream.length ∧
      (RecordRoute.loop ops F s stream).feature_count =
        s.feature_count +
          stream.countP (fun p => decide ((GetFeature F p).2.name ≠ "")) := by
  induction stream generalizing s with
  | nil => simp [RecordRoute.loop]
  | cons p rest ih =>
    simp only [List.length_cons, Nat.cast_add, Nat.cast_one] at h2
    have hlen : (0 : Int) ≤ rest.length := Int.ofNat_nonneg _
    have hp : wrapInt32 (s.point_count + 1) = s.point_count + 1 :=
      wrapInt32_of_range _ (by omega) (by omega)
    have hf : wrapInt32 (s.feature_count + 1) = s.feature_count + 1 :=
      wrapInt32_of_range _ (by omega) (by omega)
    by_cases hname : GetFeatureName p F = ""
    · have hb : (RecordRoute.body ops F s p).point_count = s.point_count + 1 ∧
          (RecordRoute.body ops F s p).feature_count = s.feature_count := by
        simp [RecordRoute.body, hp, hname]
      obtain ⟨ih1, ih2⟩ := ih (RecordRoute.body ops F s p) (by rw [hb.2]; exact h0)
        (by rw [hb.1, hb.2]; omega) (by rw [hb.1]; omega)
      refine ⟨?_, ?_⟩
      · rw [RecordRoute.loop, ih1, hb.1, List.length_cons]
        push_cast
        ring
      · rw [RecordRoute.loop, ih2, hb.2, List.countP_cons]
        simp [GetFeature, hname]
    · have hb : (RecordRoute.body ops F s p).point_count = s.point_count + 1 ∧
          (RecordRoute.body ops F s p).feature_count = s.feature_count + 1 := by
        simp [RecordRoute.body, hp, hf, hname]
      obtain ⟨ih1, ih2⟩ := ih (RecordRoute.body ops F s p) (by rw [hb.2]; omega)
        (by rw [hb.1, hb.2]; omega) (by rw [hb.1]; omega)
      refine ⟨?_, ?_⟩
      · rw [RecordRoute.loop, ih1, hb.1, List.length_cons]
        push_cast
        ring
      · rw [RecordRoute.loop, ih2, hb.2, List.countP_cons]
        simp [GetFeature, hname]
        ring

/-- C7: for a stream of `N` points, `N` below 2^31 so that the 32-bit counters do
not wrap, `RecordRoute` returns OK and a summary whose `point_count` is `N` and
whose `feature_count` is the number of points of the stream, with multiplicity,
for which `GetFeature` on the store returns a non-empty name. -/
theorem RecordRoute_counts (ops : FloatArith) (F : List Feature) (secs : Int)
    (stream : List Point) (hN : stream.length < 2 ^ 31) :
    (RecordRoute ops F secs stream).1 = Status.OK ∧
      (RecordRoute ops F secs stream).2.point_count = stream.length ∧
      (RecordRoute ops F secs stream).2.feature_count =
        stream.countP (fun p => decide ((GetFeature F p).2.name ≠ "")) := by
  have h2 : RecordRoute.init.point_count + (stream.length : Int) < 2147483648 := by
    have : (stream.length : Int) < 2147483648 := by exact_mod_cast hN
    simpa [RecordRoute.init] using this
  obtain ⟨hp, hf⟩ := RecordRoute.loop_counts ops F stream RecordRoute.init
    (by simp [RecordRoute.init]) (by simp [RecordRoute.init]) h2
  refine ⟨rfl, ?_, ?_⟩
  · simp only [RecordRoute, hp]
    simp [RecordRoute.init]
  · simp only [RecordRoute, hf]
    simp [RecordRoute.init]

/-- The counts of C7 on a stream of three points, two of them at the feature "A". -/
theorem RecordRoute_counts_witness :
    (RecordRoute exactArith storeA 3
        [{ latitude := 10000000, longitude := 10000000 }, { latitude := 0, longitude := 0 },
          { latitude := 10000000, longitude := 10000000 }]).1 = Status.OK ∧
      (RecordRoute exactArith storeA 3
        [{ latitude := 10000000, longitude := 10000000 }, { latitude := 0, longitude := 0 },
          { latitude := 10000000, longitude := 10000000 }]).2.point_count =
        ([{ latitude := 10000000, longitude := 10000000 }, { latitude := 0, longitude := 0 },
          { latitude := 10000000, longitude := 10000000 }] : List Point).length ∧
      (RecordRoute exactArith storeA 3
        [{ latitude := 10000000, longitude := 10000000 }, { latitude := 0, longitude := 0 },
          { latitude := 10000000, longitude := 10000000 }]).2.feature_count =
        ([{ latitude := 10000000, longitude := 10000000 }, { latitude := 0, longitude := 0 },
          { latitude := 10000000, longitude := 10000000 }] : List Point).countP
            (fun p => decide ((GetFeature storeA p).2.name ≠ "")) :=
  RecordRoute_counts exactArith storeA 3
    [{ latitude := 10000000, longitude := 10000000 }, { latitude := 0, longitude := 0 },
      { latitude := 10000000, longitude := 10000000 }] (by decide)

/-- C9: on a stream of no points `RecordRoute` returns OK and the summary with
`point_count` 0, `feature_count` 0 and `distance` 0, whatever the store. -/
theorem RecordRoute_empty_stream (ops : FloatArith) (F : List Feature) (secs : Int) :
    RecordRoute ops F secs [] =
      (Status.OK,
        { point_count := 0, feature_count := 0, distance := some 0, elapsed_time := secs }) := by
  have h : static_cast_long (FloatVal.finite 0) = some 0 := by decide
  simp only [RecordRoute, RecordRoute.loop, RecordRoute.init, h]

/-- C10: on the stream of the one point `p`, whatever its coordinates and the
store, the summary of `RecordRoute` has `distance` 0 and `point_count` 1: the
loop leaves the running distance at its initial zero and adds no leg from the
initial `previous` point. -/
theorem RecordRoute_single_point (ops : FloatArith) (F : List Feature) (secs : Int)
    (p : Point) :
    (RecordRoute ops F secs [p]).2.distance = some 0 ∧
      (RecordRoute ops F secs [p]).2.point_count = 1 ∧
      (RecordRoute.loop ops F RecordRoute.init [p]).distance = RecordRoute.init.distance := by
  have h : static_cast_long (FloatVal.finite 0) = some 0 := by decide
  have hw : wrapInt32 1 = 1 := by decide
  simp [RecordRoute, RecordRoute.loop, RecordRoute.body, RecordRoute.init, h, hw]

theorem RouteChat.mem_scan_sameLocation (L : List RouteNote) (n m : RouteNote)
    (h : m ∈ (RouteChat.step L n).1) : SameLocation n m := by
  simp only [RouteChat.step, RouteChat.scan_eq, List.nil_append, List.mem_filter,
    decide_eq_true_eq] at h
  exact h.2

theorem not_sameLocation_of_differ (a b : RouteNote)
    (h : a.location.latitude ≠ b.location.latitude ∨
      a.location.longitude ≠ b.location.longitude) :
    ¬ SameLocation b a ∧ ¬ SameLocation a b := by
  unfold SameLocation
  constructor
  · rintro ⟨h1, h2⟩
    rcases h with h | h
    · exact h h1
    · exact h h2
  · rintro ⟨h1, h2⟩
    rcases h with h | h
    · exact h h1.symm
    · exact h h2.symm

/-- C11: for notes `a` and `b` whose locations differ in latitude or in
longitude, and any log, the step that processes `b` does not write `a` and the
step that processes `a` does not write `b`; the same holds of the steps of `a`
and of `b` at any place of any run from any log. -/
theorem RouteChat_different_locations_never_echo (L : List RouteNote) (a b : RouteNote)
    (h : a.location.latitude ≠ b.location.latitude ∨
      a.location.longitude ≠ b.location.longitude) :
    a ∉ (RouteChat.step L b).1 ∧ b ∉ (RouteChat.step L a).1 ∧
      (∀ (ns : List (Nat × RouteNote)) (k c : Nat) (sent : List RouteNote),
        (RouteChat.run L ns).2[k]? = some (c, sent) →
          (ns[k]? = some (c, b) → a ∉ sent) ∧ (ns[k]? = some (c, a) → b ∉ sent)) := by
  obtain ⟨hba, hab⟩ := not_sameLocation_of_differ a b h
  refine ⟨fun hm => hba (RouteChat.mem_scan_sameLocation L b a hm),
    fun hm => hab (RouteChat.mem_scan_sameLocation L a b hm), ?_⟩
  intro ns k c sent hs
  constructor
  · intro hk hm
    rw [RouteChat.run_snd_getElem? L ns k c b hk] at hs
    simp only [Option.some.injEq, Prod.mk.injEq, true_and] at hs
    rw [← hs, List.mem_filter, decide_eq_true_eq] at hm
    exact hba hm.2
  · intro hk hm
    rw [RouteChat.run_snd_getElem? L ns k c a hk] at hs
    simp only [Option.some.injEq, Prod.mk.injEq, true_and] at hs
    rw [← hs, List.mem_filter, decide_eq_true_eq] at hm
    exact hab hm.2

/-- The C11 statement on the log of the client's first three notes, for the notes
"Second message" at (0, 1) and "Fourth message" at (0, 0). -/
theorem RouteChat_different_locations_never_echo_witness :
    MakeRouteNote "Second message" 0 1 ∉
        (RouteChat.step (clientNotes.take 3) (MakeRouteNote "Fourth message" 0 0)).1 ∧
      MakeRouteNote "Fourth message" 0 0 ∉
        (RouteChat.step (clientNotes.take 3) (MakeRouteNote "Second message" 0 1)).1 ∧
      (∀ (ns : List (Nat × RouteNote)) (k c : Nat) (sent : List RouteNote),
        (RouteChat.run (clientNotes.take 3) ns).2[k]? = some (c, sent) →
          (ns[k]? = some (c, MakeRouteNote "Fourth message" 0 0) →
            MakeRouteNote "Second message" 0 1 ∉ sent) ∧
          (ns[k]? = some (c, MakeRouteNote "Second message" 0 1) →
            MakeRouteNote "Fourth message" 0 0 ∉ sent)) :=
  RouteChat_different_locations_never_echo (clientNotes.take 3)
    (MakeRouteNote "Second message" 0 1) (MakeRouteNote "Fourth message" 0 0)
    (Or.inr (by decide))

theorem RouteChat.run_append_fst (L : List RouteNote) (ns more : List (Nat × RouteNote)) :
    (RouteChat.run L (ns ++ more)).1 = (RouteChat.run L ns).1 ++ more.map Prod.snd := by
  simp only [RouteChat.run_fst, List.map_append, List.append_assoc]

/-- C12: one step of `RouteChat` leaves a log that starts with the log `L` it
found, every earlier note unaltered at its position, and is one note longer; so
in a run from any log the log after any number of its steps is an initial part
of the log after any further steps, and the log grows by one note a step. -/
theorem RouteChat_log_only_grows (L : List RouteNote) (n : RouteNote) :
    L <+: (RouteChat.step L n).2 ∧
      (RouteChat.step L n).2.length = L.length + 1 ∧
      (RouteChat.step L n).2.take L.length = L ∧
      (∀ i, i < L.length → (RouteChat.step L n).2[i]? = L[i]?) ∧
      (∀ ns more : List (Nat × RouteNote),
        (RouteChat.run L ns).1 <+: (RouteChat.run L (ns ++ more)).1 ∧
          (RouteChat.run L ns).1.length = L.length + ns.length) := by
  have h2 : (RouteChat.step L n).2 = L ++ [n] := rfl
  refine ⟨⟨[n], h2.symm⟩, by simp [h2], by simp [h2], ?_, ?_⟩
  · intro i hi
    rw [h2, List.getElem?_append_left hi]
  · intro ns more
    refine ⟨⟨more.map Prod.snd, (RouteChat.run_append_fst L ns more).symm⟩, ?_⟩
    simp [RouteChat.run_fst]

theorem RouteChat.scanSends_sublist (note : RouteNote) (ok : Nat → Bool)
    (L : List RouteNote) (i : Nat) (delivered : List RouteNote) :
    ∃ d, RouteChat.scanSends note ok L i delivered = delivered ++ d ∧
      d.Sublist (L.filter (fun m => decide (SameLocation note m))) := by
  induction L generalizing i delivered with
  | nil => exact ⟨[], by simp [RouteChat.scanSends], List.Sublist.slnil⟩
  | cons m rest ih =>
    by_cases h : m.location.latitude = note.location.latitude ∧
        m.location.longitude = note.location.longitude
    · have hd : decide (SameLocation note m) = true := decide_eq_true h
      simp only [RouteChat.scanSends, if_pos h, List.filter_cons, hd, if_true]
      cases hok : ok i with
      | true =>
        obtain ⟨d, hd1, hd2⟩ := ih (i + 1) (delivered ++ [m])
        refine ⟨m :: d, ?_, hd2.cons₂ m⟩
        simp only [if_true, hd1, List.append_assoc, List.singleton_append]
      | false =>
        obtain ⟨d, hd1, hd2⟩ := ih (i + 1) delivered
        refine ⟨d, ?_, hd2.cons m⟩
        simpa using hd1
    · have hd : decide (SameLocation note m) = false := decide_eq_false h
      simp only [RouteChat.scanSends, if_neg h, List.filter_cons, hd]
      obtain ⟨d, hd1, hd2⟩ := ih i delivered
      exact ⟨d, hd1, by simpa using hd2⟩

theorem RouteChat.scanSends_all_ok (note : RouteNote) (L : List RouteNote) (i : Nat)
    (delivered : List RouteNote) :
    RouteChat.scanSends note (fun _ => true) L i delivered =
      RouteChat.scan note L delivered := by
  induction L generalizing i delivered with
  | nil => rfl
  | cons m rest ih =>
    by_cases h : m.location.latitude = note.location.latitude ∧
        m.location.longitude = note.location.longitude
    · simp only [RouteChat.scanSends, RouteChat.scan, if_pos h, if_true, ih]
    · simp only [RouteChat.scanSends, RouteChat.scan, if_neg h, ih]

/-- C13: with each write of the scan succeeding or failing as `ok` tells, the log
after the step is `L` with the incoming note appended, the same log as when every
write succeeds; the failures only remove notes from what reaches the caller,
which is what the step writes when every write succeeds. -/
theorem RouteChat_failed_send_keeps_note (L : List RouteNote) (n : RouteNote)
    (ok : Nat → Bool) :
    (RouteChat.stepSends L n ok).2 = L ++ [n] ∧
      (RouteChat.stepSends L n ok).2 = (RouteChat.step L n).2 ∧
      (RouteChat.stepSends L n ok).1.Sublist (RouteChat.step L n).1 ∧
      RouteChat.stepSends L n (fun _ => true) = RouteChat.step L n := by
  refine ⟨rfl, rfl, ?_, ?_⟩
  · obtain ⟨d, hd1, hd2⟩ := RouteChat.scanSends_sublist n ok L 0 []
    simp only [RouteChat.stepSends, RouteChat.step, hd1, RouteChat.scan_eq, List.nil_append]
    exact hd2
  · simp only [RouteChat.stepSends, RouteChat.step, RouteChat.scanSends_all_ok]

/-- C14: `ListFeatures` returns the same for the corners `a`, `b` in either
order and with only their latitudes or only their longitudes exchanged; two
rectangles with the same smaller and larger coordinate on each axis give the same
result. -/
theorem ListFeatures_corner_order_irrelevant (F : List Feature) (a b : Point) :
    ListFeatures F { lo := a, hi := b } = ListFeatures F { lo := b, hi := a } ∧
      ListFeatures F { lo := a, hi := b } =
        ListFeatures F
          { lo := { latitude := b.latitude, longitude := a.longitude },
            hi := { latitude := a.latitude, longitude := b.longitude } } ∧
      ListFeatures F { lo := a, hi := b } =
        ListFeatures F
          { lo := { latitude := a.latitude, longitude := b.longitude },
            hi := { latitude := b.latitude, longitude := a.longitude } } ∧
      (∀ c d : Point,
        min a.longitude b.longitude = min c.longitude d.longitude →
        max a.longitude b.longitude = max c.longitude d.longitude →
        min a.latitude b.latitude = min c.latitude d.latitude →
        max a.latitude b.latitude = max c.latitude d.latitude →
        ListFeatures F { lo := a, hi := b } = ListFeatures F { lo := c, hi := d }) := by
  have key : ∀ c d : Point,
      min a.longitude b.longitude = min c.longitude d.longitude →
      max a.longitude b.longitude = max c.longitude d.longitude →
      min a.latitude b.latitude = min c.latitude d.latitude →
      max a.latitude b.latitude = max c.latitude d.latitude →
      ListFeatures F { lo := a, hi := b } = ListFeatures F { lo := c, hi := d } := by
    intro c d h1 h2 h3 h4
    simp only [ListFeatures, h1, h2, h3, h4]
  refine ⟨?_, ?_, ?_, key⟩
  · exact key b a (min_comm _ _) (max_comm _ _) (min_comm _ _) (max_comm _ _)
  · exact key _ _ rfl rfl (min_comm _ _) (max_comm _ _)
  · exact key _ _ (min_comm _ _) (max_comm _ _) rfl rfl

theorem GetFeatureName_eq_head_filter (p : Point) (F : List Feature) :
    GetFeatureName p F =
      (((F.filter (fun f => decide (LocatedAt p f))).head?).map Feature.name).getD "" := by
  induction F with
  | nil => rfl
  | cons g rest ih =>
    by_cases hg : g.location.latitude = p.latitude ∧ g.location.longitude = p.longitude
    · have hd : decide (LocatedAt p g) = true := decide_eq_true hg
      simp only [GetFeatureName, if_pos hg, List.filter_cons, hd, if_true, List.head?_cons,
        Option.map_some', Option.getD_some]
    · have hd : decide (LocatedAt p g) = false := decide_eq_false hg
      simp only [GetFeatureName, if_neg hg, List.filter_cons, hd, ih]
      simp

/-- C18: on the rectangle with both corners at `p`, `ListFeatures` returns OK and
the features of the store located at `p`, in store order; the name `GetFeature`
returns for `p` is the name of the first feature of that result, and the empty
string when the result is empty. -/
theorem GetFeature_agrees_with_ListFeatures (F : List Feature) (p : Point) :
    ListFeatures F { lo := p, hi := p } =
        (Status.OK, F.filter (fun f => decide (LocatedAt p f))) ∧
      (GetFeature F p).2.name =
        ((((ListFeatures F { lo := p, hi := p }).2).head?).map Feature.name).getD "" ∧
      ((ListFeatures F { lo := p, hi := p }).2 = [] → (GetFeature F p).2.name = "") := by
  have h : ListFeatures F { lo := p, hi := p } =
      (Status.OK, F.filter (fun f => decide (LocatedAt p f))) := by
    simp only [ListFeatures, ListFeatures.loop_eq, List.nil_append, min_self, max_self,
      LocatedAt, ge_iff_le]
    congr 2
    funext f
    rw [decide_eq_decide]
    constructor
    · rintro ⟨h1, h2, h3, h4⟩
      exact ⟨le_antisymm h4 h3, le_antisymm h2 h1⟩
    · rintro ⟨h1, h2⟩
      exact ⟨h2.ge, h2.le, h1.ge, h1.le⟩
  have hn : (GetFeature F p).2.name =
      ((((ListFeatures F { lo := p, hi := p }).2).head?).map Feature.name).getD "" := by
    rw [h]
    exact GetFeatureName_eq_head_filter p F
  refine ⟨h, hn, fun he => ?_⟩
  rw [hn, he]
  rfl

theorem wrapInt32_succ (x : Int) : wrapInt32 (wrapInt32 x + 1) = wrapInt32 (x + 1) := by
  unfold wrapInt32
  norm_num
  omega

theorem RecordRoute.loop_point_count (ops : FloatArith) (F : List Feature)
    (stream : List Point) (s : RecordRouteState) (x : Int)
    (h : s.point_count = wrapInt32 x) :
    (RecordRoute.loop ops F s stream).point_count = wrapInt32 (x + stream.length) := by
  induction stream generalizing s x with
  | nil => simpa [RecordRoute.loop] using h
  | cons p rest ih =>
    have hb : (RecordRoute.body ops F s p).point_count = wrapInt32 (x + 1) := by
      simp only [RecordRoute.body, h, wrapInt32_succ]
    rw [RecordRoute.loop, ih _ (x + 1) hb, List.length_cons]
    congr 1
    push_cast
    ring

theorem RecordRoute.loop_feature_count_nil (ops : FloatArith) (stream : List Point)
    (s : RecordRouteState) :
    (RecordRoute.loop ops [] s stream).feature_count = s.feature_count := by
  induction stream generalizing s with
  | nil => rfl
  | cons p rest ih =>
    rw [RecordRoute.loop, ih]
    simp [RecordRoute.body, GetFeatureName]

theorem RecordRoute.loop_append (ops : FloatArith) (F : List Feature)
    (pre suf : List Point) (s : RecordRouteState) :
    RecordRoute.loop ops F s (pre ++ suf) =
      RecordRoute.loop ops F (RecordRoute.loop ops F s pre) suf := by
  induction pre generalizing s with
  | nil => rfl
  | cons p rest ih =>
    rw [List.cons_append]
    simp only [RecordRoute.loop]
    exact ih _

theorem RecordRoute.summary_counts (ops : FloatArith) (F : List Feature) (secs : Int)
    (stream : List Point) :
    (RecordRoute ops F secs stream).2.point_count =
        (RecordRoute.loop ops F RecordRoute.init stream).point_count ∧
      (RecordRoute ops F secs stream).2.feature_count =
        (RecordRoute.loop ops F RecordRoute.init stream).feature_count :=
  ⟨rfl, rfl⟩

/-- C19, as stated, fails: on the empty store and the stream of 2147483648
points at (0, 0) the 32-bit `point_count` has wrapped to -2147483648, below the
`feature_count` 0 and below the `point_count` 1 of the stream of the first point
alone. -/
theorem RecordRoute_point_count_wraps :
    (RecordRoute exactArith [] 0
        (List.replicate 2147483648 { latitude := 0, longitude := 0 })).2.point_count =
        -2147483648 ∧
      (RecordRoute exactArith [] 0
        (List.replicate 2147483648 { latitude := 0, longitude := 0 })).2.feature_count = 0 ∧
      ¬ ((RecordRoute exactArith [] 0
          (List.replicate 2147483648 { latitude := 0, longitude := 0 })).2.feature_count ≤
        (RecordRoute exactArith [] 0
          (List.replicate 2147483648 { latitude := 0, longitude := 0 })).2.point_count) ∧
      ¬ ((RecordRoute exactArith [] 0 [{ latitude := 0, longitude := 0 }]).2.point_count ≤
        (RecordRoute exactArith [] 0
          (List.replicate 2147483648 { latitude := 0, longitude := 0 })).2.point_count) := by
  have hp : (RecordRoute exactArith [] 0
      (List.replicate 2147483648 { latitude := 0, longitude := 0 })).2.point_count =
      -2147483648 := by
    have h := RecordRoute.loop_point_count exactArith []
      (List.replicate 2147483648 { latitude := 0, longitude := 0 }) RecordRoute.init 0
      (by norm_num [RecordRoute.init, wrapInt32])
    rw [List.length_replicate] at h
    have hw : wrapInt32 (0 + ((2147483648 : Nat) : Int)) = -2147483648 := by
      norm_num [wrapInt32]
    rw [hw] at h
    rw [(RecordRoute.summary_counts _ _ _ _).1, h]
  have hf : (RecordRoute exactArith [] 0
      (List.replicate 2147483648 { latitude := 0, longitude := 0 })).2.feature_count = 0 := by
    rw [(RecordRoute.summary_counts _ _ _ _).2, RecordRoute.loop_feature_count_nil]
    rfl
  have h1 : (RecordRoute exactArith [] 0 [{ latitude := 0, longitude := 0 }]).2.point_count =
      1 := by decide
  refine ⟨hp, hf, ?_, ?_⟩
  · rw [hp, hf]
    decide
  · rw [hp, h1]
    decide

/-- C19, amended: for a stream of fewer than 2^31 points, split anywhere into the
points read so far and the points still to come, the counters after the points
read so far satisfy 0 <= `feature_count` <= `point_count`, so do the counters of
the final summary, and the counts for the points read so far are at most the
counts for the whole stream. -/
theorem RecordRoute_counters_bounded_monotone (ops : FloatArith) (F : List Feature)
    (secs : Int) (pre suf : List Point) (hN : (pre ++ suf).length < 2 ^ 31) :
    RecordRoute.loop ops F RecordRoute.init (pre ++ suf) =
        RecordRoute.loop ops F (RecordRoute.loop ops F RecordRoute.init pre) suf ∧
      0 ≤ (RecordRoute.loop ops F RecordRoute.init pre).feature_count ∧
      (RecordRoute.loop ops F RecordRoute.init pre).feature_count ≤
        (RecordRoute.loop ops F RecordRoute.init pre).point_count ∧
      0 ≤ (RecordRoute ops F secs (pre ++ suf)).2.feature_count ∧
      (RecordRoute ops F secs (pre ++ suf)).2.feature_count ≤
        (RecordRoute ops F secs (pre ++ suf)).2.point_count ∧
      (RecordRoute ops F secs pre).2.point_count ≤
        (RecordRoute ops F secs (pre ++ suf)).2.point_count ∧
      (RecordRoute ops F secs pre).2.feature_count ≤
        (RecordRoute ops F secs (pre ++ suf)).2.feature_count := by
  have hlen : pre.length + suf.length < 2147483648 := by
    have := hN
    rw [List.length_append] at this
    exact_mod_cast this
  have hsuf : (0 : Int) ≤ suf.length := Int.ofNat_nonneg _
  have hpre : ((pre.length : Int)) + suf.length < 2147483648 := by exact_mod_cast hlen
  obtain ⟨hp1, hf1⟩ := RecordRoute.loop_counts ops F pre RecordRoute.init
    (by simp [RecordRoute.init]) (by simp [RecordRoute.init])
    (by simp only [RecordRoute.init]; omega)
  obtain ⟨hp2, hf2⟩ := RecordRoute.loop_counts ops F (pre ++ suf) RecordRoute.init
    (by simp [RecordRoute.init]) (by simp [RecordRoute.init])
    (by simp only [RecordRoute.init, List.length_append]; push_cast; omega)
  have e0 : RecordRoute.init.point_count = 0 := rfl
  have e1 : RecordRoute.init.feature_count = 0 := rfl
  rw [e0, zero_add] at hp1 hp2
  rw [e1, zero_add] at hf1 hf2
  have hc1 : pre.countP (fun p => decide ((GetFeature F p).2.name ≠ "")) ≤ pre.length :=
    List.countP_le_length _
  have hc2 : (pre ++ suf).countP (fun p => decide ((GetFeature F p).2.name ≠ "")) ≤
      (pre ++ suf).length := List.countP_le_length _
  have hc3 : pre.countP (fun p => decide ((GetFeature F p).2.name ≠ "")) ≤
      (pre ++ suf).countP (fun p => decide ((GetFeature F p).2.name ≠ "")) := by
    rw [List.countP_append]
    exact Nat.le_add_right _ _
  have hl : pre.length ≤ (pre ++ suf).length := by
    rw [List.length_append]
    exact Nat.le_add_right _ _
  refine ⟨RecordRoute.loop_append ops F pre suf RecordRoute.init, ?_, ?_, ?_, ?_, ?_, ?_⟩
  · rw [hf1]
    exact Int.ofNat_nonneg _
  · rw [hf1, hp1]
    exact_mod_cast hc1
  · simp only [RecordRoute, hf2]
    exact Int.ofNat_nonneg _
  · simp only [RecordRoute, hf2, hp2]
    exact_mod_cast hc2
  · simp only [RecordRoute, hp1, hp2]
    exact_mod_cast hl
  · simp only [RecordRoute, hf1, hf2]
    exact_mod_cast hc3

/-- The amended C19 on a stream of three points, read up to its first two. -/
theorem RecordRoute_counters_bounded_monotone_witness :
    RecordRoute.loop exactArith storeA RecordRoute.init
        ([{ latitude := 10000000, longitude := 10000000 }, { latitude := 0, longitude := 0 }] ++
          [{ latitude := 10000000, longitude := 10000000 }]) =
        RecordRoute.loop exactArith storeA
          (RecordRoute.loop exactArith storeA RecordRoute.init
            [{ latitude := 10000000, longitude := 10000000 },
              { latitude := 0, longitude := 0 }])
          [{ latitude := 10000000, longitude := 10000000 }] ∧
      0 ≤ (RecordRoute.loop exactArith storeA RecordRoute.init
        [{ latitude := 10000000, longitude := 10000000 },
          { latitude := 0, longitude := 0 }]).feature_count ∧
      (RecordRoute.loop exactArith storeA RecordRoute.init
        [{ latitude := 10000000, longitude := 10000000 },
          { latitude := 0, longitude := 0 }]).feature_count ≤
        (RecordRoute.loop exactArith storeA RecordRoute.init
          [{ latitude := 10000000, longitude := 10000000 },
            { latitude := 0, longitude := 0 }]).point_count ∧
      0 ≤ (RecordRoute exactArith storeA 3
        ([{ latitude := 10000000, longitude := 10000000 }, { latitude := 0, longitude := 0 }] ++
          [{ latitude := 10000000, longitude := 10000000 }])).2.feature_count ∧
      (RecordRoute exactArith storeA 3
        ([{ latitude := 10000000, longitude := 10000000 }, { latitude := 0, longitude := 0 }] ++
          [{ latitude := 10000000, longitude := 10000000 }])).2.feature_count ≤
        (RecordRoute exactArith storeA 3
          ([{ latitude := 10000000, longitude := 10000000 },
              { latitude := 0, longitude := 0 }] ++
            [{ latitude := 10000000, longitude := 10000000 }])).2.point_count ∧
      (RecordRoute exactArith storeA 3
        [{ latitude := 10000000, longitude := 10000000 },
          { latitude := 0, longitude := 0 }]).2.point_count ≤
        (RecordRoute exactArith storeA 3
          ([{ latitude := 10000000, longitude := 10000000 },
              { latitude := 0, longitude := 0 }] ++
            [{ latitude := 10000000, longitude := 10000000 }])).2.point_count ∧
      (RecordRoute exactArith storeA 3
        [{ latitude := 10000000, longitude := 10000000 },
          { latitude := 0, longitude := 0 }]).2.feature_count ≤
        (RecordRoute exactArith storeA 3
          ([{ latitude := 10000000, longitude := 10000000 },
              { latitude := 0, longitude := 0 }] ++
            [{ latitude := 10000000, longitude := 10000000 }])).2.feature_count :=
  RecordRoute_counters_bounded_monotone exactArith storeA 3
    [{ latitude := 10000000, longitude := 10000000 }, { latitude := 0, longitude := 0 }]
    [{ latitude := 10000000, longitude := 10000000 }] (by decide)

end RouteGuide
